import Mathlib

/-!
Verification of the bunql query-building library (github.com/fxnoob/bunql).

The development shallowly embeds the Go sources: the DTO data model
(`dto/dto.go`), the operator registry (`operator` package), the filter
compiler (`filter` package, the revision with date handling and NOT IN),
the sort compiler (`sorting/sort.go`), the pagination engine
(`pagination/pagination.go`), and the orchestrator (`bunql.go`).

The external query-builder collaborator (`uptrace/bun`'s `SelectQuery`)
mutates its receiver in place and returns the same pointer.  The
embedding renders each builder method (`Where`, `WhereGroup`,
`OrderExpr`, `Limit`, `Offset`) as a state transformer on a query value
(`Query → Query`) — in-place mutation threaded through reassignment of
the one pointer — and renders Go pointer assignment as aliasing: code
that reuses a pointer after further mutation (as `ApplyWithCount` does
for its count query) observes the mutated shared state, never a copy.
JSON (de)serialization is treated as a given codec: parsing entry points
take the already-decoded value.
-/

namespace Bunql

/-- Filter values arrive from JSON as dynamically typed data
(`interface{}` in Go); modeled as a closed variant over the JSON shapes
the library manipulates. -/
inductive Value where
  | null : Value
  | bool (b : Bool) : Value
  | num (n : Int) : Value
  | str (s : String) : Value
  | arr (elems : List Value) : Value
deriving Repr

/-- Structural equality on `Value` (Go `==` / `reflect.DeepEqual` style). -/
def Value.beq : Value → Value → Bool
  | .null, .null => true
  | .bool a, .bool b => a == b
  | .num a, .num b => a == b
  | .str a, .str b => a == b
  | .arr as, .arr bs => beqList as bs
  | _, _ => false
where beqList : List Value → List Value → Bool
  | [], [] => true
  | a :: as, b :: bs => Value.beq a b && beqList as bs
  | _, _ => false

instance : BEq Value := ⟨Value.beq⟩

/-- Embeds `dto.Filter`: a single filter condition (tree leaf). -/
structure Filter where
  field : String
  operator : String
  value : Value
deriving Repr

/-- Embeds `dto.FilterGroup`: a boolean combination of leaves and nested groups.
Recursive, so declared as an inductive with projection functions. -/
inductive FilterGroup where
  | mk (logic : String) (filters : List Filter) (groups : List FilterGroup)
deriving Repr

def FilterGroup.logic : FilterGroup → String
  | .mk l _ _ => l

def FilterGroup.filters : FilterGroup → List Filter
  | .mk _ fs _ => fs

def FilterGroup.groups : FilterGroup → List FilterGroup
  | .mk _ _ gs => gs

/-- Embeds `dto.SortField`. -/
structure SortField where
  field : String
  direction : String
deriving Repr

/-- Embeds `dto.Pagination`. -/
structure Pagination where
  page : Int
  pageSize : Int
deriving Repr, DecidableEq

/-- Embeds `dto.GetPaginationMetadataOutput`. -/
structure GetPaginationMetadataOutput where
  total : Int
  prev : Option String
  next : Option String
  totalItem : Int
deriving Repr, DecidableEq

/-- Embeds `bun.Ident`: a field name bound as a quoted identifier by the query
builder (rendered with identifier quoting, unlike raw SQL text). -/
inductive SqlIdent where
  | ident (name : String)
deriving Repr, DecidableEq

def SqlIdent.name : SqlIdent → String
  | .ident n => n

/-- A compiled leaf predicate: one `query.Where(template, args...)` call of
`filter.ApplyFilter`, one constructor per template the Go code uses. -/
inductive Pred where
  | cmp (op : String) (field : SqlIdent) (value : Value)
  | cmpDate (op : String) (field : SqlIdent) (value : String)
  | like (field : SqlIdent) (pattern : String)
  | inList (field : SqlIdent) (value : Value)
  | notInList (field : SqlIdent) (value : Value)
  | isNull (field : SqlIdent)
  | isNotNull (field : SqlIdent)
  | between (field : SqlIdent) (lo hi : Value)
  | betweenDate (field : SqlIdent) (lo hi : String)
deriving Repr

/-- The identifier a compiled predicate binds its field as. -/
def Pred.fieldId : Pred → SqlIdent
  | .cmp _ f _ => f
  | .cmpDate _ f _ => f
  | .like f _ => f
  | .inList f _ => f
  | .notInList f _ => f
  | .isNull f => f
  | .isNotNull f => f
  | .between f _ _ => f
  | .betweenDate f _ _ => f

/-- A WHERE-clause condition of the query builder: either a leaf predicate
or a boolean group with a logic combinator (`bun` `WhereGroup`). -/
inductive Cond where
  | pred (p : Pred)
  | group (logic : String) (conds : List Cond)
deriving Repr

/-- The query-builder collaborator (`bun.SelectQuery`), modeled as the
parts of its state the library manipulates: WHERE conditions, ORDER BY
expressions, LIMIT and OFFSET. -/
structure Query where
  wheres : List Cond
  orders : List String
  limit : Option Int
  offset : Option Int
deriving Repr

/-- A fresh base query (`db.NewSelect()`), before any clause is applied. -/
def Query.base : Query := ⟨[], [], none, none⟩

/-- Embeds `query.Where(...)` with a single leaf predicate. -/
def Query.wherePred (q : Query) (p : Pred) : Query :=
  { q with wheres := q.wheres ++ [Cond.pred p] }

/-- Embeds `query.WhereGroup(logic, fn)`: run `fn` against the query with an
empty condition list, then wrap the conditions `fn` added into one
boolean group attached with `logic`, after the previously present
conditions (mirrors bun's save/apply/restore implementation). -/
def Query.whereGroup (q : Query) (logic : String) (fn : Query → Query) : Query :=
  let sub := fn { q with wheres := [] }
  { sub with wheres := q.wheres ++ [Cond.group logic sub.wheres] }

/-- Embeds `query.OrderExpr(expr)`: appends one raw ORDER BY expression. -/
def Query.orderExpr (q : Query) (e : String) : Query :=
  { q with orders := q.orders ++ [e] }

/-- Embeds `query.Limit(n)`. -/
def Query.limitTo (q : Query) (n : Int) : Query :=
  { q with limit := some n }

/-- Embeds `query.Offset(n)`. -/
def Query.offsetBy (q : Query) (n : Int) : Query :=
  { q with offset := some n }

/-- Embeds `operator.operatorMap`: the known operator mnemonics and their SQL
operators.  (Go iterates this map only for `GetSupportedOperators`;
lookup is order-independent, so a list of pairs is faithful.) -/
def operatorMap : List (String × String) :=
  [("eq", "="), ("neq", "!="), ("gt", ">"), ("gte", ">="),
   ("lt", "<"), ("lte", "<="), ("like", "LIKE"), ("in", "IN"),
   ("notin", "NOT IN"), ("isnull", "IS NULL"), ("isnotnull", "IS NOT NULL")]

/-- Go `strings.ToLower`, modeled character-wise.  (Defined by a
structural map over the characters so that concrete instances compute;
the library's operator mnemonics, logic strings and sort directions are
ASCII, where this agrees with Go.) -/
def lowerStr (s : String) : String := String.mk (s.data.map Char.toLower)

/-- Go `strings.ToUpper`, modeled character-wise. -/
def upperStr (s : String) : String := String.mk (s.data.map Char.toUpper)

/-- Embeds `operator.GetOperator`: case-insensitive lookup, defaulting to
equality for unknown mnemonics. -/
def GetOperator (op : String) : String :=
  (operatorMap.lookup (lowerStr op)).getD "="

/-- Embeds `operator.IsValidOperator`: strict membership check. -/
def IsValidOperator (op : String) : Bool :=
  (operatorMap.lookup (lowerStr op)).isSome

def allDigits (cs : List Char) : Bool := cs.all (·.isDigit)

/-- Matches the regex pattern for YYYY-MM-DD (anchored both ends). -/
def matchYMD (s : String) : Bool :=
  match s.toList with
  | [a, b, c, d, '-', e, f, '-', g, h] => allDigits [a, b, c, d, e, f, g, h]
  | _ => false

/-- Matches the regex pattern for MM/DD/YYYY (1-2 digit month and day). -/
def matchSlashMDY (s : String) : Bool :=
  match s.splitOn "/" with
  | [m, d, y] =>
    (m.length == 1 || m.length == 2) && (d.length == 1 || d.length == 2) &&
    y.length == 4 && allDigits m.toList && allDigits d.toList && allDigits y.toList
  | _ => false

/-- Matches the regex pattern for DD-MM-YYYY (1-2 digit day and month). -/
def matchDashDMY (s : String) : Bool :=
  match s.splitOn "-" with
  | [d, m, y] =>
    (d.length == 1 || d.length == 2) && (m.length == 1 || m.length == 2) &&
    y.length == 4 && allDigits d.toList && allDigits m.toList && allDigits y.toList
  | _ => false

/-- Matches the regex pattern for YYYY/MM/DD. -/
def matchSlashYMD (s : String) : Bool :=
  match s.splitOn "/" with
  | [y, m, d] =>
    y.length == 4 && (m.length == 1 || m.length == 2) &&
    (d.length == 1 || d.length == 2) &&
    allDigits y.toList && allDigits m.toList && allDigits d.toList
  | _ => false

/-- Matches the ISO timestamp regex, anchored only at the start (any
suffix after the seconds field is accepted, as in the Go pattern). -/
def matchISO (s : String) : Bool :=
  match s.toList with
  | a :: b :: c :: d :: '-' :: e :: f :: '-' :: g :: h :: 'T' ::
    i :: j :: ':' :: k :: l :: ':' :: m :: n :: _ =>
    allDigits [a, b, c, d, e, f, g, h, i, j, k, l, m, n]
  | _ => false

/-- Embeds `filter.isDateString`: heuristic date-literal recognizer over a fixed
set of patterns. -/
def isDateString (s : String) : Bool :=
  matchYMD s || matchSlashMDY s || matchDashDMY s || matchSlashYMD s || matchISO s

/-- Go `fmt` `%v` rendering of a filter value, used when building a LIKE
pattern from a non-string value. -/
def formatValue : Value → String
  | .null => "<nil>"
  | .bool b => if b then "true" else "false"
  | .num n => toString n
  | .str s => s
  | .arr elems => "[" ++ String.intercalate " " (elems.attach.map
      (fun e => formatValue e.val)) ++ "]"
decreasing_by
  have h := List.sizeOf_lt_of_mem e.property
  simp_wf
  omega

/-- The LIKE pattern `filter.ApplyFilter` builds: a string value keeps
existing wildcards, otherwise wildcards are added on both ends;
non-string values are stringified and wrapped. -/
def likePattern (v : Value) : String :=
  match v with
  | .str sv => if sv.contains '%' then sv else "%" ++ sv ++ "%"
  | _ => "%" ++ formatValue v ++ "%"

/-- The predicate `filter.ApplyFilter` compiles a leaf to.  Every branch
of the Go switch performs exactly one `query.Where` call; this function
computes that call's predicate, and `ApplyFilter` issues it. -/
def filterPred (f : Filter) : Pred :=
  let field := SqlIdent.ident f.field
  let op := GetOperator f.operator
  let value := f.value
  if op == "=" || op == "!=" || op == ">" || op == ">=" || op == "<" || op == "<=" then
    match value with
    | .str sv =>
      if isDateString sv then Pred.cmpDate op field sv
      else Pred.cmp op field value
    | _ => Pred.cmp op field value
  else if op == "LIKE" then
    Pred.like field (likePattern value)
  else if op == "IN" then
    Pred.inList field value
  else if op == "NOT IN" then
    Pred.notInList field value
  else if op == "IS NULL" then
    Pred.isNull field
  else if op == "IS NOT NULL" then
    Pred.isNotNull field
  else if op == "BETWEEN" then
    match value with
    | .arr [lo, hi] =>
      match lo, hi with
      | .str ls, .str hs =>
        if isDateString ls && isDateString hs then Pred.betweenDate field ls hs
        else Pred.between field lo hi
      | _, _ => Pred.between field lo hi
    | _ => Pred.cmp "=" field value
  else
    Pred.cmp "=" field value

/-- Embeds `filter.ApplyFilter`: applies a single filter to the query. -/
def ApplyFilter (query : Query) (f : Filter) : Query :=
  query.wherePred (filterPred f)

/-- The logic normalization `filter.ApplyFilterGroup` performs on each
group it compiles: lower-case, and default the empty string to AND. -/
def normLogic (l : String) : String :=
  if lowerStr l == "" then "and" else lowerStr l

/-- Embeds `filter.ApplyFilterGroup`: identity on a group with no filters and no
sub-groups; otherwise one `WhereGroup` for the group, containing its
direct filters and, per direct sub-group, one nested `WhereGroup`
containing that sub-group's direct filters.  (The Go code does not
recurse into sub-groups of sub-groups.) -/
def ApplyFilterGroup (query : Query) (group : FilterGroup) : Query :=
  if group.filters.isEmpty && group.groups.isEmpty then query
  else
    query.whereGroup (normLogic group.logic) (fun q =>
      let q1 := group.filters.foldl ApplyFilter q
      group.groups.foldl (fun acc ng =>
        acc.whereGroup (normLogic ng.logic) (fun subq =>
          ng.filters.foldl ApplyFilter subq)) q1)

/-- Embeds `filter.ParseFilters`, post-codec: the decoded group with missing or
empty logic defaulted to AND. -/
def ParseFilters (decoded : FilterGroup) : FilterGroup :=
  if decoded.logic == "" then
    FilterGroup.mk "and" decoded.filters decoded.groups
  else decoded

/-- Embeds `sorting.ParseSort`, post-codec: normalizes each direction to its
lower-case form, defaulting anything other than asc/desc to asc. -/
def ParseSort (decoded : List SortField) : List SortField :=
  decoded.map (fun s =>
    let dir := lowerStr s.direction
    if dir != "asc" && dir != "desc" then { s with direction := "asc" }
    else { s with direction := dir })

/-- Embeds `sorting.ApplySort`: for each sort field in order, appends the ORDER
BY expression built by plain string concatenation of the field name and
the upper-cased direction (Go `fmt.Sprintf("%s %s", ...)`). -/
def ApplySort (query : Query) (sortFields : List SortField) : Query :=
  sortFields.foldl (fun q s => q.orderExpr (s.field ++ " " ++ upperStr s.direction)) query

/-- Embeds `pagination.ApplyPagination`: LIMIT pageSize when positive, plus
OFFSET (page-1)*pageSize when page is positive. -/
def ApplyPagination (query : Query) (p : Pagination) : Query :=
  if p.pageSize > 0 then
    let q1 := query.limitTo p.pageSize
    if p.page > 0 then q1.offsetBy ((p.page - 1) * p.pageSize) else q1
  else query

/-- The `BunQL` orchestrator state. -/
structure BunQL where
  filters : FilterGroup
  sort : List SortField
  pagination : Option Pagination
  allowedFilterFields : List String
  allowedSortFields : List String

/-- Embeds `bunql.NewWithAllowedFields`. -/
def NewWithAllowedFields (allowedFilterFields allowedSortFields : List String) : BunQL :=
  { filters := FilterGroup.mk "and" [] []
    sort := []
    pagination := none
    allowedFilterFields := allowedFilterFields
    allowedSortFields := allowedSortFields }

/-- Embeds `bunql.New`. -/
def New : BunQL := NewWithAllowedFields [] []

/-- Embeds `(*BunQL).Apply`: filter, then sorting, then pagination, each guarded
by non-emptiness of the corresponding configuration. -/
def BunQL.apply (ql : BunQL) (query : Query) : Query :=
  let q1 :=
    if !ql.filters.filters.isEmpty || !ql.filters.groups.isEmpty then
      ApplyFilterGroup query ql.filters
    else query
  let q2 := if !ql.sort.isEmpty then ApplySort q1 ql.sort else q1
  match ql.pagination with
  | some p => ApplyPagination q2 p
  | none => q2

/-- Embeds `(*BunQL).ApplyWithCount`.  In Go, `query`, `mainQuery` and
`countQuery` all hold the same `*bun.SelectQuery` pointer: `Apply`
mutates the shared object (filter, sort, paging), `countQuery := query`
copies only the pointer, and the guarded `ApplyFilterGroup` then mutates
the shared object once more.  Both returned handles therefore denote the
same final query state. -/
def BunQL.applyWithCount (ql : BunQL) (query : Query) : Query × Query :=
  let afterApply := ql.apply query
  let afterCount :=
    if !ql.filters.filters.isEmpty || !ql.filters.groups.isEmpty then
      ApplyFilterGroup afterApply ql.filters
    else afterApply
  (afterCount, afterCount)

/-- Embeds `bunql.contains`. -/
def containsStr (slice : List String) (item : String) : Bool :=
  slice.any (· == item)

/-- Embeds `bunql.validateFilterFields`: depth-first allowlist check, failing on
the first leaf whose field is not allowed.  (The single-quote characters
of the Go error message are elided.) -/
def validateFilterFields (group : FilterGroup) (allowedFields : List String) :
    Except String Unit :=
  match group with
  | .mk _ fs gs =>
    match fs.find? (fun f => !(containsStr allowedFields f.field)) with
    | some f => Except.error ("filter field " ++ f.field ++ " is not allowed")
    | none => validateFilterFieldsList gs allowedFields
where validateFilterFieldsList (gs : List FilterGroup) (allowedFields : List String) :
    Except String Unit :=
  match gs with
  | [] => Except.ok ()
  | g :: rest =>
    match validateFilterFields g allowedFields with
    | Except.ok () => validateFilterFieldsList rest allowedFields
    | Except.error e => Except.error e

/-- Embeds `bunql.validateSortFields`. -/
def validateSortFields (sortFields : List SortField) (allowedFields : List String) :
    Except String Unit :=
  match sortFields.find? (fun s => !(containsStr allowedFields s.field)) with
  | some s => Except.error ("sort field " ++ s.field ++ " is not allowed")
  | none => Except.ok ()

/-- Embeds `filter.validateFilter`: requires a non-empty field and a
registry-valid operator. -/
def validateFilter (f : Filter) : Except String Unit :=
  if f.field == "" then Except.error "filter field cannot be empty"
  else if !(IsValidOperator f.operator) then
    Except.error ("invalid operator: " ++ f.operator)
  else Except.ok ()

/-- Embeds `filter.validateFilterGroup`: requires logic to be and/or
(case-insensitive), validates each leaf and recursively each nested
group.  (Quote characters of the Go message are elided.) -/
def validateFilterGroup (group : FilterGroup) : Except String Unit :=
  match group with
  | .mk logic fs gs =>
    if lowerStr logic != "and" && lowerStr logic != "or" then
      Except.error "filter group logic must be and or or"
    else
      match fs.find? (fun f => !(validateFilter f).toBool) with
      | some f =>
        match validateFilter f with
        | Except.error e => Except.error e
        | Except.ok () => validateFilterGroupList gs
      | none => validateFilterGroupList gs
where validateFilterGroupList (gs : List FilterGroup) : Except String Unit :=
  match gs with
  | [] => Except.ok ()
  | g :: rest =>
    match validateFilterGroup g with
    | Except.ok () => validateFilterGroupList rest
    | Except.error e => Except.error e

/-- Embeds `bunql.ParseFromParamsWithAllowedFields`, post-codec: the filter and
sort parameters are the decoded values of the raw JSON parameters
(`none` models an empty raw parameter, which is skipped). -/
def ParseFromParamsWithAllowedFields (filterParam : Option FilterGroup)
    (sortParam : Option (List SortField)) (page pageSize : Int)
    (allowedFilterFields allowedSortFields : List String) : Except String BunQL := do
  let ql := NewWithAllowedFields allowedFilterFields allowedSortFields
  let ql ← match filterParam with
    | none => pure ql
    | some decoded =>
      let filters := ParseFilters decoded
      if allowedFilterFields.length > 0 then
        match validateFilterFields filters allowedFilterFields with
        | Except.error e => throw e
        | Except.ok () => pure { ql with filters := filters }
      else pure { ql with filters := filters }
  let ql ← match sortParam with
    | none => pure ql
    | some decoded =>
      let sort := ParseSort decoded
      if allowedSortFields.length > 0 then
        match validateSortFields sort allowedSortFields with
        | Except.error e => throw e
        | Except.ok () => pure { ql with sort := sort }
      else pure { ql with sort := sort }
  let ql :=
    if page > 0 || pageSize > 0 then
      { ql with pagination := some ⟨page, pageSize⟩ }
    else ql
  pure ql

/-- Embeds `bunql.ParseFromParams`: the allowlist-free entry point (Go passes
nil allowlists through to `ParseFromParamsWithAllowedFields`). -/
def ParseFromParams (filterParam : Option FilterGroup)
    (sortParam : Option (List SortField)) (page pageSize : Int) : Except String BunQL :=
  ParseFromParamsWithAllowedFields filterParam sortParam page pageSize [] []

/-- Modelled from the spec: `filter.ParseFilterParam` is code of this
repository that is absent from the staged sources — only its unit test
(`filter/filter_test.go`) and its exported callers
(`bunql.ParseFilterParams`, `bunql.ParseMultipleFilterParams`) appear.
Per the spec's `parseFromSingleCondition` constructor and its
error-handling design (EmptyField and UnknownOperator surfaced as
descriptive errors; unrecognized logic defaults to AND rather than
erroring, per the unit test's contract): an empty field or an
unregistered operator is rejected, otherwise the result is a one-leaf
group under the normalized logic.  The error texts mirror
`validateFilter`; the unit test asserts only that an error occurs. -/
def ParseFilterParam (field operator : String) (value : Value) (logic : String) :
    Except String FilterGroup :=
  if field == "" then Except.error "filter field cannot be empty"
  else if !(IsValidOperator operator) then
    Except.error ("invalid operator: " ++ operator)
  else
    let l := lowerStr logic
    let l := if l != "and" && l != "or" then "and" else l
    Except.ok (FilterGroup.mk l [⟨field, operator, value⟩] [])

/-- Embeds `url.QueryEscape`: percent-encodes everything except unreserved
characters, with space encoded as plus. -/
def queryEscape (s : String) : String :=
  String.join (s.toList.map (fun c =>
    if c.isAlphanum || c == '-' || c == '_' || c == '.' || c == '~' then
      String.singleton c
    else if c == ' ' then "+"
    else String.join ((String.singleton c).toUTF8.toList.map (fun b =>
      "%" ++ String.singleton (Nat.digitChar (b.toNat / 16)).toUpper ++
      String.singleton (Nat.digitChar (b.toNat % 16)).toUpper))))

/-- Embeds `url.ParseQuery` over a raw query string, without percent-decoding:
splits on ampersands, then each pair on its first equals sign. -/
def parseQueryString (raw : String) : List (String × String) :=
  (raw.splitOn "&").filterMap (fun kv =>
    if kv == "" then none
    else match kv.splitOn "=" with
    | [] => none
    | [k] => some (k, "")
    | k :: rest => some (k, String.intercalate "=" rest))

/-- Replace every value of `key` with the single `value` (the Go code
overwrites the map entry with a one-element slice).  Go iterates the
parameter map in unspecified order; this model fixes the order to
existing-parameters-first, which no claim depends on. -/
def setParam (params : List (String × String)) (key value : String) :
    List (String × String) :=
  (params.filter (fun kv => kv.1 != key)) ++ [(key, value)]

/-- The prev/next URL construction of `bunql.GetPaginationMetadata`:
split the base URI on the first question mark, keep existing query
parameters, overwrite page and pageSize, re-serialize. -/
def buildPageURL (baseURI : String) (page pageSize : Int) : String :=
  let parts := baseURI.splitOn "?"
  let baseURL := parts.headD ""
  let rawQuery := String.intercalate "?" (parts.drop 1)
  let params0 :=
    if parts.length > 1 && parts.getD 1 "" != "" then parseQueryString rawQuery
    else []
  let params := setParam (setParam params0 "page" (toString page)) "pageSize" (toString pageSize)
  let queryStr :=
    if params.isEmpty then ""
    else "?" ++ String.intercalate "&" (params.map (fun kv =>
      queryEscape kv.1 ++ "=" ++ queryEscape kv.2))
  baseURL ++ queryStr

/-- Embeds `bunql.GetPaginationMetadata`: total pages by integer division with a
remainder bump, current page clamped to at least 1, prev/next links when
not on the first/last page.  `Int.tdiv`/`Int.tmod` match Go's
truncating integer division. -/
def GetPaginationMetadata (p : Option Pagination) (totalCount : Int)
    (baseURI : String) : GetPaginationMetadataOutput :=
  match p with
  | none => { total := 1, prev := none, next := none, totalItem := totalCount }
  | some pg =>
    if pg.pageSize ≤ 0 then
      { total := 1, prev := none, next := none, totalItem := totalCount }
    else
      let total0 := totalCount.tdiv pg.pageSize
      let total := if totalCount.tmod pg.pageSize > 0 then total0 + 1 else total0
      let currentPage := if pg.page < 1 then 1 else pg.page
      let prev :=
        if currentPage > 1 then
          some (buildPageURL baseURI (currentPage - 1) pg.pageSize)
        else none
      let next :=
        if currentPage < total then
          some (buildPageURL baseURI (currentPage + 1) pg.pageSize)
        else none
      { total := total, prev := prev, next := next, totalItem := totalCount }

/-- The sequence a set-membership value denotes (`bun.In`). -/
def inValues : Value → List Value
  | .arr elems => elems
  | v => [v]

/-- Row-level semantics of the set-membership predicate kinds, per the
collaborator contract: `IN` holds when the field value is in the
sequence, `NOT IN` when it is not; other predicate kinds are outside
this evaluator's scope. -/
def Pred.evalSetMembership : Pred → Value → Option Bool
  | .inList _ vs, v => some ((inValues vs).contains v)
  | .notInList _ vs, v => some (!((inValues vs).contains v))
  | _, _ => none

/-- All leaf field names of a filter tree, at every depth. -/
def treeFields : FilterGroup → List String
  | .mk _ fs gs => fs.map Filter.field ++ treeFieldsList gs
where treeFieldsList : List FilterGroup → List String
  | [] => []
  | g :: rest => treeFields g ++ treeFieldsList rest

/-- All field names bound by the predicates of a condition tree. -/
def condFields : Cond → List String
  | .pred p => [p.fieldId.name]
  | .group _ cs => condFieldsList cs
where condFieldsList : List Cond → List String
  | [] => []
  | c :: rest => condFields c ++ condFieldsList rest

/-- All field names bound anywhere in a query's WHERE clause. -/
def queryFields (q : Query) : List String :=
  condFields.condFieldsList q.wheres

/-- The logic combinator of each top-level WHERE condition (empty string
for a leaf predicate). -/
def topLogics (q : Query) : List String :=
  q.wheres.map (fun c =>
    match c with
    | .pred _ => ""
    | .group l _ => l)

/-- Folding `ApplyFilter` over a list of leaves appends exactly the
compiled leaf predicates, in order. -/
theorem foldl_applyFilter (fs : List Filter) (q : Query) :
    fs.foldl ApplyFilter q =
      { q with wheres := q.wheres ++ fs.map (fun f => Cond.pred (filterPred f)) } := by
  induction fs generalizing q with
  | nil => simp
  | cons f rest ih =>
    simp [List.foldl_cons, ih, ApplyFilter, Query.wherePred, List.append_assoc]

/-- Folding the nested-group step of `ApplyFilterGroup` appends one
boolean group per direct sub-group, holding only that sub-group's own
leaves. -/
theorem foldl_nestedGroups (gs : List FilterGroup) (q : Query) :
    gs.foldl (fun acc ng =>
        acc.whereGroup (normLogic ng.logic) (fun subq =>
          ng.filters.foldl ApplyFilter subq)) q =
      { q with wheres := q.wheres ++ gs.map (fun ng =>
          Cond.group (normLogic ng.logic)
            (ng.filters.map (fun f => Cond.pred (filterPred f)))) } := by
  induction gs generalizing q with
  | nil => simp
  | cons g rest ih =>
    rw [List.foldl_cons, ih]
    simp [Query.whereGroup, foldl_applyFilter, List.append_assoc]

/-- Lemma: `whereGroup` with a body that appends a fixed condition list wraps
that list into one boolean group. -/
theorem whereGroup_of_fn (q : Query) (l : String) (fn : Query → Query)
    (body : List Cond)
    (hfn : ∀ r : Query, fn r = { r with wheres := r.wheres ++ body }) :
    q.whereGroup l fn = { q with wheres := q.wheres ++ [Cond.group l body] } := by
  simp [Query.whereGroup, hfn]

/-- Characterization of `ApplyFilterGroup` on a non-empty group: one
outer boolean group holding the group's leaves followed by one inner
boolean group per direct sub-group with that sub-group's leaves. -/
theorem applyFilterGroup_eq (q : Query) (g : FilterGroup)
    (h : (g.filters.isEmpty && g.groups.isEmpty) = false) :
    ApplyFilterGroup q g =
      { q with wheres := q.wheres ++ [Cond.group (normLogic g.logic)
          (g.filters.map (fun f => Cond.pred (filterPred f)) ++
           g.groups.map (fun ng => Cond.group (normLogic ng.logic)
             (ng.filters.map (fun f => Cond.pred (filterPred f)))))] } := by
  unfold ApplyFilterGroup
  rw [if_neg (by simp [h])]
  rw [whereGroup_of_fn _ _ _
    (g.filters.map (fun f => Cond.pred (filterPred f)) ++
     g.groups.map (fun ng => Cond.group (normLogic ng.logic)
       (ng.filters.map (fun f => Cond.pred (filterPred f)))))]
  intro r
  rw [foldl_applyFilter, foldl_nestedGroups]
  simp [List.append_assoc]

/-- Lemma: `ApplyFilterGroup` on an empty group is the identity. -/
theorem applyFilterGroup_empty_group (q : Query) (g : FilterGroup)
    (hf : g.filters = []) (hg : g.groups = []) : ApplyFilterGroup q g = q := by
  unfold ApplyFilterGroup
  simp [hf, hg]

/-- Lemma: `ApplyFilterGroup` touches only the WHERE clause: ORDER BY, LIMIT and
OFFSET pass through unchanged. -/
theorem applyFilterGroup_shape (q : Query) (g : FilterGroup) :
    (ApplyFilterGroup q g).orders = q.orders ∧
    (ApplyFilterGroup q g).limit = q.limit ∧
    (ApplyFilterGroup q g).offset = q.offset := by
  by_cases h : (g.filters.isEmpty && g.groups.isEmpty) = true
  · unfold ApplyFilterGroup
    simp [h]
  · rw [applyFilterGroup_eq q g (by simpa using h)]
    exact ⟨rfl, rfl, rfl⟩

/-- The filter guard of `Apply`/`ApplyWithCount` collapses: skipping an
empty group equals compiling it (identity either way). -/
theorem filterGuard_collapse (g : FilterGroup) (q : Query) :
    (if !g.filters.isEmpty || !g.groups.isEmpty then ApplyFilterGroup q g else q) =
      ApplyFilterGroup q g := by
  by_cases h : (!g.filters.isEmpty || !g.groups.isEmpty) = true
  · simp [h]
  · have hfg : g.filters.isEmpty = true ∧ g.groups.isEmpty = true := by
      constructor <;> revert h <;> cases g.filters.isEmpty <;> cases g.groups.isEmpty <;> simp
    rw [if_neg (by simpa using h),
      applyFilterGroup_empty_group q g
        (List.isEmpty_iff.mp hfg.1) (List.isEmpty_iff.mp hfg.2)]

/-- Lemma: `ApplySort` as an explicit ORDER BY append. -/
theorem applySort_eq (q : Query) (sortFields : List SortField) :
    ApplySort q sortFields =
      { q with orders := q.orders ++ sortFields.map (fun s => s.field ++ " " ++ upperStr s.direction) } := by
  induction sortFields generalizing q with
  | nil => simp [ApplySort]
  | cons s rest ih =>
    simp [ApplySort] at ih ⊢
    rw [ih]
    simp [Query.orderExpr, List.append_assoc]

/-- The sort guard of `Apply` collapses: skipping an empty sort list
equals applying it. -/
theorem sortGuard_collapse (sortFields : List SortField) (q : Query) :
    (if !sortFields.isEmpty then ApplySort q sortFields else q) = ApplySort q sortFields := by
  cases sortFields with
  | nil => simp [ApplySort]
  | cons s rest => simp

/-- An orchestrator state with a filter, a sort and pagination, used to
refute the claimed count-query shape. -/
def c1Sample : BunQL :=
  { filters := FilterGroup.mk "and" [⟨"age", "gt", Value.num 21⟩] []
    sort := [⟨"name", "asc"⟩]
    pagination := some ⟨1, 10⟩
    allowedFilterFields := []
    allowedSortFields := [] }

/-- C1 counterexample: with a filter, a sort and pagination configured,
the count query returned by `ApplyWithCount` carries the sort's ORDER BY
term, the LIMIT, the OFFSET, and the filter group twice — because Go's
`countQuery := query` aliases the pointer `Apply` already mutated —
refuting that only the filter and never sort or limit/offset appear on
it. -/
theorem C1_counterexample :
    (c1Sample.applyWithCount Query.base).2.orders = ["name ASC"] ∧
    (c1Sample.applyWithCount Query.base).2.limit = some 10 ∧
    (c1Sample.applyWithCount Query.base).2.offset = some 0 ∧
    (c1Sample.applyWithCount Query.base).2.wheres =
      [Cond.group "and" [Cond.pred (Pred.cmp ">" (SqlIdent.ident "age") (Value.num 21))],
       Cond.group "and" [Cond.pred (Pred.cmp ">" (SqlIdent.ident "age") (Value.num 21))]] :=
  ⟨rfl, rfl, rfl, rfl⟩

/-- C1 (amended): `ApplyWithCount` returns two handles to one shared
query — both components are equal — and that shared query is the fully
applied main query (filter, sort, paging) with the filter group applied
a second time; its ORDER BY, LIMIT and OFFSET are exactly the main
query's, so sort and paging do appear on the count query. -/
theorem C1_applyWithCount_aliasing (ql : BunQL) (q : Query) :
    (ql.applyWithCount q).1 = (ql.applyWithCount q).2 ∧
    (ql.applyWithCount q).2 = ApplyFilterGroup (ql.apply q) ql.filters ∧
    (ql.applyWithCount q).2.orders = (ql.apply q).orders ∧
    (ql.applyWithCount q).2.limit = (ql.apply q).limit ∧
    (ql.applyWithCount q).2.offset = (ql.apply q).offset := by
  have hsnd : (ql.applyWithCount q).2 = ApplyFilterGroup (ql.apply q) ql.filters := by
    show (if !ql.filters.filters.isEmpty || !ql.filters.groups.isEmpty then
        ApplyFilterGroup (ql.apply q) ql.filters else ql.apply q) = _
    exact filterGuard_collapse ql.filters (ql.apply q)
  refine ⟨rfl, hsnd, ?_, ?_, ?_⟩
  · rw [hsnd]
    exact (applyFilterGroup_shape (ql.apply q) ql.filters).1
  · rw [hsnd]
    exact (applyFilterGroup_shape (ql.apply q) ql.filters).2.1
  · rw [hsnd]
    exact (applyFilterGroup_shape (ql.apply q) ql.filters).2.2

/-- The filter tree of the C2 counterexample: a root group whose only
sub-group itself contains a sub-group carrying the single leaf of the
whole tree (field `deep`). -/
def deepGroup : FilterGroup :=
  FilterGroup.mk "and" []
    [FilterGroup.mk "or" []
      [FilterGroup.mk "and" [⟨"deep", "eq", Value.num 1⟩] []]]

/-- C2 counterexample: compiling a depth-3 tree drops the leaf nested two
levels below the root — the emitted expression does not mirror the tree,
refuting the claim that no leaf or sub-group at any depth is dropped. -/
theorem C2_counterexample :
    (treeFields deepGroup).contains "deep" = true ∧
    (queryFields (ApplyFilterGroup Query.base deepGroup)).contains "deep" = false :=
  ⟨rfl, rfl⟩

/-- C2 (amended): compilation handles exactly one level of nesting — the
root group compiles to one grouped expression holding its own leaves and,
per direct sub-group, one inner grouped expression (with that sub-group's
own logic) holding only that sub-group's leaves; anything nested deeper
is dropped. -/
theorem C2_nesting_one_level (q : Query) (g : FilterGroup)
    (h : (g.filters.isEmpty && g.groups.isEmpty) = false) :
    ApplyFilterGroup q g =
      { q with wheres := q.wheres ++ [Cond.group (normLogic g.logic)
          (g.filters.map (fun f => Cond.pred (filterPred f)) ++
           g.groups.map (fun ng => Cond.group (normLogic ng.logic)
             (ng.filters.map (fun f => Cond.pred (filterPred f)))))] } :=
  applyFilterGroup_eq q g h

/-- Concrete instance for the C2 amended theorem: one leaf and one
sub-group with its own logic and one leaf. -/
def nestedSample : FilterGroup :=
  FilterGroup.mk "or" [⟨"age", "gt", Value.num 21⟩]
    [FilterGroup.mk "and" [⟨"x", "eq", Value.num 1⟩] []]

/-- Witness for the C2 amended theorem at a concrete two-level tree. -/
theorem C2_nesting_one_level_witness :
    ((nestedSample.filters.isEmpty && nestedSample.groups.isEmpty) = false) ∧
    ApplyFilterGroup Query.base nestedSample =
      { Query.base with wheres := [Cond.group "or"
          [Cond.pred (Pred.cmp ">" (SqlIdent.ident "age") (Value.num 21)),
           Cond.group "and"
             [Cond.pred (Pred.cmp "=" (SqlIdent.ident "x") (Value.num 1))]]] } :=
  ⟨rfl, C2_nesting_one_level Query.base nestedSample rfl⟩

/-- C3: the operator registry has no entry for `between`, so the mnemonic
resolves to the permissive equality default and the compiled predicate is
an equality against the raw two-element array, not a BETWEEN range — the
BETWEEN branch of the compiler is unreachable.  (The repository's README
and its e2e between test expect an inclusive range.) -/
theorem C3_between_compiles_to_equality :
    GetOperator "between" = "=" ∧
    IsValidOperator "between" = false ∧
    ApplyFilter Query.base ⟨"age", "between", Value.arr [Value.num 25, Value.num 40]⟩ =
      Query.base.wherePred (Pred.cmp "=" (SqlIdent.ident "age")
        (Value.arr [Value.num 25, Value.num 40])) :=
  ⟨rfl, rfl, rfl⟩

/-- The filter group of the C5 counterexample: unrecognized logic. -/
def xorGroup : FilterGroup :=
  FilterGroup.mk "xor" [⟨"age", "eq", Value.num 1⟩] []

/-- C5 counterexample: a group whose logic is `xor` does not compile as
if its logic were AND — the unrecognized combinator is passed through to
the emitted boolean group unchanged. -/
theorem C5_counterexample :
    topLogics (ApplyFilterGroup Query.base xorGroup) = ["xor"] ∧
    topLogics (ApplyFilterGroup Query.base
      (FilterGroup.mk "and" xorGroup.filters xorGroup.groups)) = ["and"] ∧
    ApplyFilterGroup Query.base xorGroup ≠
      ApplyFilterGroup Query.base (FilterGroup.mk "and" xorGroup.filters xorGroup.groups) :=
  ⟨rfl, rfl, fun h => by
    have h2 : (["xor"] : List String) = ["and"] := congrArg topLogics h
    exact absurd h2 (by decide)⟩

/-- C5 (amended): parsing defaults a missing/empty logic to AND, and
compilation lower-cases the logic and defaults the empty string to AND,
but passes any other unrecognized logic through to the emitted boolean
group unchanged instead of normalizing it to AND. -/
theorem C5_logic_normalization (g : FilterGroup) (q : Query)
    (h : (g.filters.isEmpty && g.groups.isEmpty) = false) :
    (ParseFilters g).logic = (if g.logic == "" then "and" else g.logic) ∧
    topLogics (ApplyFilterGroup q g) =
      topLogics q ++ [if lowerStr g.logic == "" then "and" else lowerStr g.logic] := by
  refine ⟨?_, ?_⟩
  · cases g with
    | mk l fs gs =>
      by_cases hb : l == ""
      · simp [ParseFilters, FilterGroup.logic, hb]
      · simp [ParseFilters, FilterGroup.logic, hb]
  · rw [applyFilterGroup_eq q g h]
    simp [topLogics, normLogic]

/-- Witness for the C5 amended theorem at the `xor` group. -/
theorem C5_logic_normalization_witness :
    ((xorGroup.filters.isEmpty && xorGroup.groups.isEmpty) = false) ∧
    (ParseFilters xorGroup).logic = "xor" ∧
    topLogics (ApplyFilterGroup Query.base xorGroup) = ["xor"] := by
  have h := C5_logic_normalization xorGroup Query.base rfl
  exact ⟨rfl, h.1, h.2⟩

/-- C8: compiling a group with no leaves and no sub-groups is the
identity on queries, contributing nothing to the WHERE clause. -/
theorem C8_empty_group_identity (q : Query) (logic : String) :
    ApplyFilterGroup q (FilterGroup.mk logic [] []) = q := rfl


/-- C4: a leaf whose operator resolves to `NOT IN` compiles to a
`field NOT IN (...)` predicate, and under the set-membership semantics
of the collaborator a NOT IN predicate over a sequence holds exactly
when the field value is not in the sequence. -/
theorem C4_notin_set_exclusion (q : Query) (f : Filter) (vs : List Value)
    (hop : GetOperator f.operator = "NOT IN") (hval : f.value = Value.arr vs) :
    ApplyFilter q f = q.wherePred (Pred.notInList (SqlIdent.ident f.field) (Value.arr vs)) ∧
    ∀ v : Value, Pred.evalSetMembership
        (Pred.notInList (SqlIdent.ident f.field) (Value.arr vs)) v =
      some (!(vs.contains v)) := by
  constructor
  · unfold ApplyFilter filterPred
    rw [hop, hval]
    simp
  · intro v
    simp [Pred.evalSetMembership, inValues]

/-- The NOT IN example of the claim: `id` not in `[1, 2]`. -/
def notinFilter : Filter := ⟨"id", "notin", Value.arr [Value.num 1, Value.num 2]⟩

/-- Witness for C4: `notin` on `id` with `[1,2]` emits NOT IN and
excludes exactly the rows whose `id` is 1 or 2. -/
theorem C4_notin_set_exclusion_witness :
    GetOperator notinFilter.operator = "NOT IN" ∧
    notinFilter.value = Value.arr [Value.num 1, Value.num 2] ∧
    ApplyFilter Query.base notinFilter =
      Query.base.wherePred (Pred.notInList (SqlIdent.ident "id")
        (Value.arr [Value.num 1, Value.num 2])) ∧
    Pred.evalSetMembership (Pred.notInList (SqlIdent.ident "id")
      (Value.arr [Value.num 1, Value.num 2])) (Value.num 1) = some false ∧
    Pred.evalSetMembership (Pred.notInList (SqlIdent.ident "id")
      (Value.arr [Value.num 1, Value.num 2])) (Value.num 2) = some false ∧
    Pred.evalSetMembership (Pred.notInList (SqlIdent.ident "id")
      (Value.arr [Value.num 1, Value.num 2])) (Value.num 3) = some true := by
  have h := C4_notin_set_exclusion Query.base notinFilter
    [Value.num 1, Value.num 2] rfl rfl
  exact ⟨rfl, rfl, h.1, h.2 (Value.num 1), h.2 (Value.num 2), h.2 (Value.num 3)⟩

/-- Lemma: `GetPaginationMetadata` on a present pagination with positive page
size, written out with the current page and total-page expressions
explicit. -/
theorem getPaginationMetadata_pos (pg : Pagination) (tc : Int) (uri : String)
    (hps : 0 < pg.pageSize) :
    GetPaginationMetadata (some pg) tc uri =
      { total := (if tc.tmod pg.pageSize > 0 then tc.tdiv pg.pageSize + 1 else tc.tdiv pg.pageSize),
        prev := (if (if pg.page < 1 then 1 else pg.page) > 1 then some (buildPageURL uri ((if pg.page < 1 then 1 else pg.page) - 1) pg.pageSize) else none),
        next := (if (if pg.page < 1 then 1 else pg.page) < (if tc.tmod pg.pageSize > 0 then tc.tdiv pg.pageSize + 1 else tc.tdiv pg.pageSize) then some (buildPageURL uri ((if pg.page < 1 then 1 else pg.page) + 1) pg.pageSize) else none),
        totalItem := tc } := by
  simp only [GetPaginationMetadata]
  rw [if_neg (show ¬pg.pageSize ≤ 0 by omega)]

/-- The remainder-bump total is exactly the ceiling of the division, in
inequality form: `ps * (T - 1) < tc ≤ ps * T`. -/
theorem totalBump_ceil (tc ps : Int) (htc : 0 ≤ tc) (hps : 0 < ps) :
    ps * ((if tc.tmod ps > 0 then tc.tdiv ps + 1 else tc.tdiv ps) - 1) < tc ∧
    tc ≤ ps * (if tc.tmod ps > 0 then tc.tdiv ps + 1 else tc.tdiv ps) := by
  have hde : tc.tdiv ps = tc / ps := Int.tdiv_eq_ediv htc hps.le
  have hme : tc.tmod ps = tc % ps := Int.tmod_eq_emod htc hps.le
  have hsum : ps * (tc / ps) + tc % ps = tc := Int.ediv_add_emod tc ps
  have hnn : 0 ≤ tc % ps := Int.emod_nonneg tc (by omega)
  have hlt : tc % ps < ps := Int.emod_lt_of_pos tc hps
  rw [hde, hme]
  by_cases hr : tc % ps > 0
  · rw [if_pos hr]
    constructor
    · have he : ps * (tc / ps + 1 - 1) = ps * (tc / ps) := by ring
      rw [he]
      linarith
    · have he : ps * (tc / ps + 1) = ps * (tc / ps) + ps := by ring
      rw [he]
      linarith
  · have hr0 : tc % ps = 0 := by omega
    rw [if_neg hr]
    constructor
    · have he : ps * (tc / ps - 1) = ps * (tc / ps) - ps := by ring
      rw [he]
      linarith
    · linarith

/-- C6: the pagination metadata has total 1, the supplied count, and no
links when pagination is absent or the page size is nonpositive;
otherwise the total is the ceiling of count over page size (integer
division with a remainder bump), the current page is `max page 1`, the
previous link is present exactly when the current page exceeds 1, and
the next link is present exactly when the current page is below the
total. -/
theorem C6_pagination_metadata (pg : Pagination) (totalCount : Int) (baseURI : String) :
    GetPaginationMetadata none totalCount baseURI =
      { total := 1, prev := none, next := none, totalItem := totalCount } ∧
    (pg.pageSize ≤ 0 → GetPaginationMetadata (some pg) totalCount baseURI =
      { total := 1, prev := none, next := none, totalItem := totalCount }) ∧
    (0 < pg.pageSize → 0 ≤ totalCount →
      pg.pageSize * ((GetPaginationMetadata (some pg) totalCount baseURI).total - 1) < totalCount ∧
      totalCount ≤ pg.pageSize * (GetPaginationMetadata (some pg) totalCount baseURI).total ∧
      (GetPaginationMetadata (some pg) totalCount baseURI).totalItem = totalCount ∧
      ((GetPaginationMetadata (some pg) totalCount baseURI).prev.isSome ↔ 1 < max pg.page 1) ∧
      ((GetPaginationMetadata (some pg) totalCount baseURI).next.isSome ↔
        max pg.page 1 < (GetPaginationMetadata (some pg) totalCount baseURI).total)) := by
  refine ⟨rfl, ?_, ?_⟩
  · intro h
    simp only [GetPaginationMetadata]
    rw [if_pos h]
  · intro hps htc
    rw [getPaginationMetadata_pos pg totalCount baseURI hps]
    have hceil := totalBump_ceil totalCount pg.pageSize htc hps
    refine ⟨hceil.1, hceil.2, rfl, ?_, ?_⟩
    · by_cases hpage : pg.page < 1
      · rw [if_pos hpage, if_neg (by omega : ¬(1:Int) > 1)]
        simp
        omega
      · rw [if_neg hpage]
        by_cases hgt : pg.page > 1
        · rw [if_pos hgt]
          simp
          omega
        · rw [if_neg hgt]
          simp
          omega
    · by_cases hpage : pg.page < 1
      · rw [if_pos hpage]
        by_cases hlt2 : (1:Int) < (if totalCount.tmod pg.pageSize > 0 then totalCount.tdiv pg.pageSize + 1 else totalCount.tdiv pg.pageSize)
        · rw [if_pos hlt2]
          simp
          omega
        · rw [if_neg hlt2]
          simp
          omega
      · rw [if_neg hpage]
        by_cases hlt2 : pg.page < (if totalCount.tmod pg.pageSize > 0 then totalCount.tdiv pg.pageSize + 1 else totalCount.tdiv pg.pageSize)
        · rw [if_pos hlt2]
          simp
          omega
        · rw [if_neg hlt2]
          simp
          omega

/-- Witness for C6 at pageSize 10, totalCount 100, page 2: ten pages,
both links present, count reported unchanged. -/
theorem C6_pagination_metadata_witness :
    (0:Int) < 10 ∧ (0:Int) ≤ 100 ∧
    (10:Int) * ((GetPaginationMetadata (some ⟨2, 10⟩) 100 "u").total - 1) < 100 ∧
    (100:Int) ≤ 10 * (GetPaginationMetadata (some ⟨2, 10⟩) 100 "u").total ∧
    (GetPaginationMetadata (some ⟨2, 10⟩) 100 "u").totalItem = 100 ∧
    ((GetPaginationMetadata (some ⟨2, 10⟩) 100 "u").prev.isSome ↔ 1 < max (2:Int) 1) ∧
    ((GetPaginationMetadata (some ⟨2, 10⟩) 100 "u").next.isSome ↔
      max (2:Int) 1 < (GetPaginationMetadata (some ⟨2, 10⟩) 100 "u").total) := by
  have h := (C6_pagination_metadata ⟨2, 10⟩ 100 "u").2.2 (by norm_num) (by norm_num)
  exact ⟨by norm_num, by norm_num, h.1, h.2.1, h.2.2.1, h.2.2.2.1, h.2.2.2.2⟩

/-- C7: no limiting when the page size is nonpositive; otherwise a LIMIT
of the page size, plus an OFFSET of `(page-1)*pageSize` exactly when the
page is positive (a nonpositive page leaves the query's offset, i.e. no
offset on a fresh query), with WHERE and ORDER BY untouched. -/
theorem C7_apply_pagination (q : Query) (p : Pagination) :
    (p.pageSize ≤ 0 → ApplyPagination q p = q) ∧
    (0 < p.pageSize →
      (ApplyPagination q p).limit = some p.pageSize ∧
      (ApplyPagination q p).offset =
        (if 0 < p.page then some ((p.page - 1) * p.pageSize) else q.offset) ∧
      (ApplyPagination q p).wheres = q.wheres ∧
      (ApplyPagination q p).orders = q.orders) := by
  constructor
  · intro h
    unfold ApplyPagination
    rw [if_neg (by omega)]
  · intro h
    unfold ApplyPagination
    rw [if_pos (by omega : p.pageSize > 0)]
    by_cases hp : p.page > 0
    · simp [hp, Query.limitTo, Query.offsetBy]
    · simp [hp, Query.limitTo, Query.offsetBy]

/-- Witness for C7 at page 0 with page size 5 on a fresh query: the limit
is applied and no offset is. -/
theorem C7_apply_pagination_witness :
    (0:Int) < 5 ∧
    (ApplyPagination Query.base ⟨0, 5⟩).limit = some 5 ∧
    (ApplyPagination Query.base ⟨0, 5⟩).offset = none ∧
    (ApplyPagination Query.base ⟨0, 5⟩).wheres = Query.base.wheres ∧
    (ApplyPagination Query.base ⟨0, 5⟩).orders = Query.base.orders := by
  have h := (C7_apply_pagination Query.base ⟨0, 5⟩).2 (by norm_num)
  exact ⟨by norm_num, h.1, h.2.1, h.2.2.1, h.2.2.2⟩

/-- C9: each ORDER BY term is the plain concatenation of the raw field
text and the upper-cased direction (no identifier wrapper), while every
compiled filter predicate binds its field as a quoted identifier
(`bun.Ident`). -/
theorem C9_sort_raw_filter_ident (q : Query) (sortFields : List SortField) :
    (ApplySort q sortFields).orders =
      q.orders ++ sortFields.map (fun s => s.field ++ " " ++ upperStr s.direction) ∧
    (ApplySort q sortFields).wheres = q.wheres ∧
    ∀ (q2 : Query) (f : Filter),
      ApplyFilter q2 f = q2.wherePred (filterPred f) ∧
      (filterPred f).fieldId = SqlIdent.ident f.field := by
  refine ⟨?_, ?_, ?_⟩
  · rw [applySort_eq]
  · rw [applySort_eq]
  · intro q2 f
    refine ⟨rfl, ?_⟩
    unfold filterPred
    dsimp only
    repeat' split
    all_goals rfl

/-- A structurally invalid group: unrecognized logic, an empty field and
an unknown operator. -/
def badGroup : FilterGroup := FilterGroup.mk "xor" [⟨"", "zzz", Value.null⟩] []

/-- C10 counterexample: the EmptyField and UnknownOperator rejections
are reachable from exported entry points — the exported single-condition
constructor `filter.ParseFilterParam` (wrapped by the exported
`bunql.ParseFilterParams` and `bunql.ParseMultipleFilterParams`) rejects
an empty field and an unregistered operator, refuting the clause that
the internal validators' errors are unreachable from any exported entry
point. -/
theorem C10_counterexample :
    ParseFilterParam "" "eq" (Value.str "test") "and" =
      Except.error "filter field cannot be empty" ∧
    ParseFilterParam "name" "zzz" (Value.str "test") "and" =
      Except.error "invalid operator: zzz" :=
  ⟨rfl, rfl⟩

/-- C10 (amended): with empty allowlists the filter-JSON path
`ParseFromParams` accepts every decoded group and stores it unchanged
apart from the empty-logic default — no structural validation runs
there, so unrecognized logic, empty fields and unknown operators flow on
toward compilation even though the internal validators would reject
them, and the InvalidLogic error of `validateFilterGroup` has no
exported caller; the EmptyField and UnknownOperator rejections, however,
are reachable through the exported single-condition constructor
`ParseFilterParam`, which errors on an empty field or an unregistered
operator and normalizes any unrecognized logic to AND instead of
erroring. -/
theorem C10_validation_reachability (g : FilterGroup) (page pageSize : Int)
    (field op logic : String) (value : Value) :
    ParseFromParams (some g) none page pageSize =
      Except.ok { filters := ParseFilters g, sort := [],
                  pagination := (if page > 0 || pageSize > 0 then some ⟨page, pageSize⟩ else none),
                  allowedFilterFields := [], allowedSortFields := [] } ∧
    (ParseFilters g).filters = g.filters ∧
    (ParseFilters g).groups = g.groups ∧
    (g.logic ≠ "" → ParseFilters g = g) ∧
    validateFilterGroup badGroup = Except.error "filter group logic must be and or or" ∧
    validateFilter ⟨"", "zzz", Value.null⟩ = Except.error "filter field cannot be empty" ∧
    IsValidOperator "zzz" = false ∧
    (field = "" → ParseFilterParam field op value logic =
      Except.error "filter field cannot be empty") ∧
    (field ≠ "" → IsValidOperator op = false → ParseFilterParam field op value logic =
      Except.error ("invalid operator: " ++ op)) ∧
    (field ≠ "" → IsValidOperator op = true → ParseFilterParam field op value logic =
      Except.ok (FilterGroup.mk
        (if lowerStr logic != "and" && lowerStr logic != "or" then "and" else lowerStr logic)
        [⟨field, op, value⟩] [])) := by
  have hmain : ParseFromParams (some g) none page pageSize =
      Except.ok { filters := ParseFilters g, sort := [],
                  pagination := (if page > 0 || pageSize > 0 then some ⟨page, pageSize⟩ else none),
                  allowedFilterFields := [], allowedSortFields := [] } := by
    unfold ParseFromParams ParseFromParamsWithAllowedFields
    dsimp only
    cases hc : (page > 0 || pageSize > 0 : Bool) with
    | false => rfl
    | true => rfl
  refine ⟨hmain, ?_, ?_, ?_, rfl, rfl, rfl, ?_, ?_, ?_⟩
  · cases g with
    | mk l fs gs =>
      by_cases hb : l == ""
      · simp [ParseFilters, FilterGroup.logic, FilterGroup.filters, FilterGroup.groups, hb]
      · simp [ParseFilters, FilterGroup.logic, FilterGroup.filters, FilterGroup.groups, hb]
  · cases g with
    | mk l fs gs =>
      by_cases hb : l == ""
      · simp [ParseFilters, FilterGroup.logic, FilterGroup.filters, FilterGroup.groups, hb]
      · simp [ParseFilters, FilterGroup.logic, FilterGroup.filters, FilterGroup.groups, hb]
  · intro hne
    cases g with
    | mk l fs gs =>
      simp only [FilterGroup.logic] at hne
      simp [ParseFilters, FilterGroup.logic, FilterGroup.filters, FilterGroup.groups, hne]
  · intro hf
    simp [ParseFilterParam, hf]
  · intro hf hop
    simp [ParseFilterParam, hf, hop]
  · intro hf hop
    simp [ParseFilterParam, hf, hop]

/-- Witness for the C10 amended theorem: the structurally invalid group
is accepted and stored verbatim by `ParseFromParams`, while
`ParseFilterParam` rejects an empty field, rejects an unknown operator,
and normalizes an invalid logic to AND on a valid single condition. -/
theorem C10_validation_reachability_witness :
    (badGroup.logic ≠ "") ∧ ParseFilters badGroup = badGroup ∧
    ParseFromParams (some badGroup) none 0 0 =
      Except.ok { filters := badGroup, sort := [], pagination := none,
                  allowedFilterFields := [], allowedSortFields := [] } ∧
    ("" : String) = "" ∧
    ParseFilterParam "" "eq" (Value.str "test") "and" =
      Except.error "filter field cannot be empty" ∧
    ("name" : String) ≠ "" ∧ IsValidOperator "invalid" = false ∧
    ParseFilterParam "name" "invalid" (Value.str "test") "and" =
      Except.error "invalid operator: invalid" ∧
    IsValidOperator "eq" = true ∧
    ParseFilterParam "name" "eq" (Value.str "test") "invalid" =
      Except.ok (FilterGroup.mk "and" [⟨"name", "eq", Value.str "test"⟩] []) := by
  have h1 := C10_validation_reachability badGroup 0 0 "" "eq" "and" (Value.str "test")
  have h2 := C10_validation_reachability badGroup 0 0 "name" "invalid" "and" (Value.str "test")
  have h3 := C10_validation_reachability badGroup 0 0 "name" "eq" "invalid" (Value.str "test")
  have hne : badGroup.logic ≠ "" := by decide
  have hname : ("name" : String) ≠ "" := by decide
  have hpf := h1.2.2.2.1 hne
  have hmain := h1.1
  rw [hpf] at hmain
  refine ⟨hne, hpf, hmain, rfl, ?_, hname, rfl, ?_, rfl, ?_⟩
  · exact h1.2.2.2.2.2.2.2.1 rfl
  · exact h2.2.2.2.2.2.2.2.2.1 hname rfl
  · exact h3.2.2.2.2.2.2.2.2.2 hname rfl

end Bunql
